import Mathlib

/-
Verification development for the stratum runtime (LLM step orchestration).

Shallow embedding of:
  * src/stratum/budget.py        — Budget (time/cost envelope)
  * src/stratum/compiler.py      — compile_prompt, prompt_hash, opaque handling
  * src/stratum/executor.py      — execute_infer retry state machine, trace writes
  * src/stratum/decorators.py    — _execute_quorum
  * src/stratum/hitl.py          — PendingReview.resolve, sink offer loop
  * stratum-mcp/src/stratum_mcp/executor.py — compile_ensure dunder guard

Machine floats of the Python source are modelled as rationals (Rat); wall-clock
readings of time.monotonic are threaded explicitly as arguments.  External
collaborators (the litellm provider adapter, json.loads, CPython compile/eval,
pydantic instantiation) are parameters of the embedding.
-/

namespace Stratum

/-- Budget dataclass from budget.py: ms/usd ceilings plus runtime counters.
Clock values are monotonic milliseconds, supplied explicitly. -/
structure Budget where
  ms : Option Rat
  usd : Option Rat
  startMs : Rat
  spentUsd : Rat
deriving DecidableEq, Repr

/-- Python max on two rationals (the second argument wins only when strictly
greater). -/
def pyMax (a b : Rat) : Rat := if a < b then b else a

/-- Budget.remaining_seconds: max(0, ms - elapsed)/1000, or None if uncapped.
`now` is the current time.monotonic()*1000 reading. -/
def Budget.remaining_seconds (b : Budget) (now : Rat) : Option Rat :=
  match b.ms with
  | none => none
  | some m => some (pyMax 0 ((m - (now - b.startMs)) / 1000))

/-- Budget.record_cost: accumulate a cost charge. -/
def Budget.record_cost (b : Budget) (usd : Rat) : Budget :=
  { b with spentUsd := b.spentUsd + usd }

/-- Budget.is_cost_exceeded: cumulative cost has reached or exceeded the ceiling. -/
def Budget.is_cost_exceeded (b : Budget) : Bool :=
  match b.usd with
  | none => false
  | some u => decide (u ≤ b.spentUsd)

/-- Budget.clone: fresh budget with the same limits, clock restarted at `now`,
spent cost zeroed. -/
def Budget.clone (b : Budget) (now : Rat) : Budget :=
  { ms := b.ms, usd := b.usd, startMs := now, spentUsd := 0 }

/-- List-of-chars test: does the second list start with the first one. -/
def startsWithChars : List Char → List Char → Bool
  | [], _ => true
  | _ :: _, [] => false
  | c :: cs, d :: ds => c == d && startsWithChars cs ds

/-- List-of-chars substring test (needle, haystack). -/
def containsChars (needle : List Char) : List Char → Bool
  | [] => needle.isEmpty
  | d :: ds => startsWithChars needle (d :: ds) || containsChars needle ds

/-- Python `needle in hay` on strings. -/
def strContains (hay needle : String) : Bool :=
  containsChars needle.data hay.data

/-- Insertion step for sorting strings lexicographically. -/
def insertSorted (s : String) : List String → List String
  | [] => [s]
  | t :: ts => if s ≤ t then s :: t :: ts else t :: insertSorted s ts

/-- Python sorted() on a list of strings (lexicographic by code point). -/
def sortStrings (l : List String) : List String :=
  l.foldr insertSorted []

/-- Value bound to a prompt input parameter.  compiler._format_value renders a
str as itself and anything else through str()/public-attribute-dict rendering;
the non-string rendering (produced by the Python stdlib) is carried verbatim. -/
inductive PVal where
  | vstr (s : String)
  | vother (rendered : String)
deriving DecidableEq, Repr

/-- compiler._format_value. -/
def formatValue : PVal → String
  | .vstr s => s
  | .vother r => r

/-- Inline reference syntax for a field name inside intent/context text. -/
def bracedRef (f : String) : String := "\x7b" ++ f ++ "\x7d"

/-- Guard of compile_prompt: some opaque field name appears as an inline
\x7bfield\x7d reference in the intent or a context string. -/
def opaqueRefViolation (intent : String) (context : List String)
    (opaqueFields : List String) : Bool :=
  !opaqueFields.isEmpty &&
    (intent :: context).any fun t => opaqueFields.any fun f => strContains t (bracedRef f)

/-- Inputs that are not tagged opaque, in declaration order (compiler.py line 70). -/
def nonOpaqueInputs (inputs : List (String × PVal)) (opaqueFields : List String) :
    List (String × PVal) :=
  inputs.filter fun kv => !(opaqueFields.contains kv.1)

/-- Pieces of the compiled prompt, in assembly order (compiler.py lines 59-87). -/
def promptParts (intent : String) (context : List String)
    (inputs : List (String × PVal)) (opaqueFields : List String)
    (retryReasons : List String) : List String :=
  [intent]
    ++ context.filter (fun c => !(c == ""))
    ++ (let no := nonOpaqueInputs inputs opaqueFields
        if no.isEmpty then []
        else "Inputs:" :: no.map fun kv => "  " ++ kv.1 ++ ": " ++ formatValue kv.2)
    ++ (if retryReasons.isEmpty then []
        else ("Previous attempt failed:" :: retryReasons.map fun r => "  - " ++ r)
          ++ ["Fix these issues specifically."])
    ++ (if opaqueFields.isEmpty then []
        else ["See attached data for: " ++ String.intercalate ", " (sortStrings opaqueFields)])

/-- compiler.compile_prompt.  Raising StratumCompileError is modelled as the
error branch of Except. -/
def compile_prompt (intent : String) (context : List String)
    (inputs : List (String × PVal)) (opaqueFields : List String)
    (retryReasons : List String) : Except String String :=
  if opaqueRefViolation intent context opaqueFields then
    .error "opaque field must not appear in inline string interpolation (intent or context)"
  else
    .ok (String.intercalate "\n" (promptParts intent context inputs opaqueFields retryReasons))

/-- Truncate to 32 bits. -/
def w32 (n : Nat) : Nat := n % 4294967296

/-- Rotate a 32-bit word right by n bits. -/
def rotr32 (n x : Nat) : Nat := w32 ((x >>> n) ||| (x <<< (32 - n)))

/-- SHA-256 round constants. -/
def sha256K : Array Nat := #[
  1116352408, 1899447441, 3049323471, 3921009573, 961987163, 1508970993,
  2453635748, 2870763221, 3624381080, 310598401, 607225278, 1426881987,
  1925078388, 2162078206, 2614888103, 3248222580, 3835390401, 4022224774,
  264347078, 604807628, 770255983, 1249150122, 1555081692, 1996064986,
  2554220882, 2821834349, 2952996808, 3210313671, 3336571891, 3584528711,
  113926993, 338241895, 666307205, 773529912, 1294757372, 1396182291,
  1695183700, 1986661051, 2177026350, 2456956037, 2730485921, 2820302411,
  3259730800, 3345764771, 3516065817, 3600352804, 4094571909, 275423344,
  430227734, 506948616, 659060556, 883997877, 958139571, 1322822218,
  1537002063, 1747873779, 1955562222, 2024104815, 2227730452, 2361852424,
  2428436474, 2756734187, 3204031479, 3329325298]

/-- SHA-256 initial hash state. -/
def sha256H0 : Array Nat :=
  #[1779033703, 3144134277, 1013904242, 2773480762, 1359893119, 2600822924, 528734635, 1541459225]

/-- SHA-256 message padding over a byte list. -/
def sha256Pad (msg : List Nat) : List Nat :=
  let len := msg.length
  let bitLen := 8 * len
  let padZeros := (64 - ((len + 9) % 64)) % 64
  msg ++ [128] ++ List.replicate padZeros 0
    ++ (List.range 8).map fun i => (bitLen >>> (8 * (7 - i))) % 256

/-- Group bytes into big-endian 32-bit words. -/
def bytesToWords : List Nat → List Nat
  | b0 :: b1 :: b2 :: b3 :: rest =>
      (((b0 * 256 + b1) * 256 + b2) * 256 + b3) :: bytesToWords rest
  | _ => []

/-- Group a word list into 16-word blocks. -/
def group16 : List Nat → List (Array Nat)
  | w0 :: w1 :: w2 :: w3 :: w4 :: w5 :: w6 :: w7 ::
    w8 :: w9 :: w10 :: w11 :: w12 :: w13 :: w14 :: w15 :: rest =>
      #[w0, w1, w2, w3, w4, w5, w6, w7, w8, w9, w10, w11, w12, w13, w14, w15] :: group16 rest
  | _ => []

/-- SHA-256 small sigma 0. -/
def sha256s0 (x : Nat) : Nat := (rotr32 7 x) ^^^ (rotr32 18 x) ^^^ (x >>> 3)

/-- SHA-256 small sigma 1. -/
def sha256s1 (x : Nat) : Nat := (rotr32 17 x) ^^^ (rotr32 19 x) ^^^ (x >>> 10)

/-- SHA-256 big Sigma 0. -/
def sha256S0 (x : Nat) : Nat := (rotr32 2 x) ^^^ (rotr32 13 x) ^^^ (rotr32 22 x)

/-- SHA-256 big Sigma 1. -/
def sha256S1 (x : Nat) : Nat := (rotr32 6 x) ^^^ (rotr32 11 x) ^^^ (rotr32 25 x)

/-- SHA-256 choice function. -/
def sha256Ch (x y z : Nat) : Nat := (x &&& y) ^^^ ((x ^^^ 4294967295) &&& z)

/-- SHA-256 majority function. -/
def sha256Maj (x y z : Nat) : Nat := (x &&& y) ^^^ (x &&& z) ^^^ (y &&& z)

/-- Extend a 16-word block to the 64-word message schedule. -/
def sha256Extend (block : Array Nat) : Array Nat :=
  (List.range 48).foldl (fun ws i =>
    let t := i + 16
    ws.push (w32 (sha256s1 ws[t - 2]! + ws[t - 7]! + sha256s0 ws[t - 15]! + ws[t - 16]!)))
    block

/-- One SHA-256 compression round over an 8-word state. -/
def sha256Round (ws : Array Nat) (st : Array Nat) (i : Nat) : Array Nat :=
  let t1 := w32 (st[7]! + sha256S1 st[4]! + sha256Ch st[4]! st[5]! st[6]!
                  + sha256K[i]! + ws[i]!)
  let t2 := w32 (sha256S0 st[0]! + sha256Maj st[0]! st[1]! st[2]!)
  #[w32 (t1 + t2), st[0]!, st[1]!, st[2]!, w32 (st[3]! + t1), st[4]!, st[5]!, st[6]!]

/-- Compress one block into the running hash state. -/
def sha256Compress (h : Array Nat) (block : Array Nat) : Array Nat :=
  let ws := sha256Extend block
  let st := (List.range 64).foldl (sha256Round ws) h
  #[w32 (h[0]! + st[0]!), w32 (h[1]! + st[1]!), w32 (h[2]! + st[2]!), w32 (h[3]! + st[3]!),
    w32 (h[4]! + st[4]!), w32 (h[5]! + st[5]!), w32 (h[6]! + st[6]!), w32 (h[7]! + st[7]!)]

/-- SHA-256 of a byte list: the eight 32-bit words of the digest. -/
def sha256Words (msg : List Nat) : Array Nat :=
  (group16 (bytesToWords (sha256Pad msg))).foldl sha256Compress sha256H0

/-- Lower-case hex digit. -/
def hexDigitChar (n : Nat) : Char :=
  if n < 10 then Char.ofNat (48 + n) else Char.ofNat (87 + n)

/-- Render a 32-bit word as 8 hex characters. -/
def toHex32 (x : Nat) : String :=
  String.mk ((List.range 8).map fun i => hexDigitChar ((x >>> (4 * (7 - i))) % 16))

/-- SHA-256 hex digest of a byte list (64 hex characters). -/
def sha256HexOfBytes (msg : List Nat) : String :=
  String.join ((sha256Words msg).toList.map toHex32)

/-- UTF-8 encoding of one code point. -/
def charUtf8Bytes (c : Char) : List Nat :=
  let n := c.toNat
  if n < 128 then [n]
  else if n < 2048 then
    [192 ||| (n >>> 6), 128 ||| (n &&& 63)]
  else if n < 65536 then
    [224 ||| (n >>> 12), 128 ||| ((n >>> 6) &&& 63), 128 ||| (n &&& 63)]
  else
    [240 ||| (n >>> 18), 128 ||| ((n >>> 12) &&& 63),
     128 ||| ((n >>> 6) &&& 63), 128 ||| (n &&& 63)]

/-- UTF-8 bytes of a string, as naturals (Python str.encode()). -/
def strBytes (s : String) : List Nat :=
  s.data.foldr (fun c acc => charUtf8Bytes c ++ acc) []

/-- compiler.prompt_hash: first 12 hex characters of the SHA-256 of the prompt. -/
def prompt_hash (p : String) : String :=
  (sha256HexOfBytes (strBytes p)).take 12

/-- Follows the wording of spec §4.2 and claim C5: the compiled prompt is, in
this fixed order and newline-separated — the intent line; the non-empty context
annotations in declaration order; an Inputs block listing the non-opaque inputs
in order; a retry block (header, one bullet per reason, closing line) present
iff retry reasons are non-empty; and the attached-data line naming the sorted
opaque field names, present iff opaque fields exist. -/
def claimPromptText (intent : String) (context : List String)
    (inputs : List (String × PVal)) (opaqueFields : List String)
    (retryReasons : List String) : String :=
  let intentPiece := [intent]
  let contextPieces := context.filter fun c => !(c == "")
  let inputsPiece :=
    if (nonOpaqueInputs inputs opaqueFields).isEmpty then []
    else "Inputs:" ::
      (nonOpaqueInputs inputs opaqueFields).map fun kv => "  " ++ kv.1 ++ ": " ++ formatValue kv.2
  let retryPiece :=
    if retryReasons.isEmpty then []
    else ("Previous attempt failed:" :: retryReasons.map fun r => "  - " ++ r)
      ++ ["Fix these issues specifically."]
  let opaquePiece :=
    if opaqueFields.isEmpty then []
    else ["See attached data for: " ++ String.intercalate ", " (sortStrings opaqueFields)]
  String.intercalate "\n" (intentPiece ++ contextPieces ++ inputsPiece ++ retryPiece ++ opaquePiece)

/-- Output object of one quorum branch, as observed by decorators._execute_quorum:
the string rendering of its agree-on field, the confidence attribute when the
shape has one, and an identity tag distinguishing otherwise-equal outputs. -/
structure QObj where
  agree : String
  confidence : Option Int
  oid : Nat
deriving DecidableEq, Repr

instance {ε α : Type} [DecidableEq ε] [DecidableEq α] : DecidableEq (Except ε α) := fun x y =>
  match x, y with
  | .ok a, .ok b => if h : a = b then isTrue (by rw [h]) else isFalse (by simp [h])
  | .error a, .error b => if h : a = b then isTrue (by rw [h]) else isFalse (by simp [h])
  | .ok _, .error _ => isFalse (by simp)
  | .error _, .ok _ => isFalse (by simp)

/-- Result of decorators._execute_quorum.  reraisedFirstFailure models
`raise first_err`; internalError models an unhandled Python exception such as
the StopIteration from `next` on an empty iterator. -/
inductive QuorumResult where
  | ok (o : QObj)
  | reraisedFirstFailure (e : String)
  | consensusFailure (fname : String) (n k : Nat) (allOutputs : List (Except String QObj))
  | internalError (msg : String)
deriving DecidableEq, Repr

/-- Successful branch outputs, in task order. -/
def successesOf (outcomes : List (Except String QObj)) : List QObj :=
  outcomes.filterMap fun o => match o with | .ok v => some v | .error _ => none

/-- First exception among the branch outcomes. -/
def firstErrorOf (outcomes : List (Except String QObj)) : Option String :=
  outcomes.findSome? fun o => match o with | .error e => some e | .ok _ => none

/-- Unique values in first-occurrence order (insertion order of a Counter). -/
def firstOccurrences (xs : List String) : List String :=
  xs.foldl (fun acc s => if acc.contains s then acc else acc ++ [s]) []

/-- Multiplicity of a value in the list. -/
def countOf (xs : List String) (s : String) : Nat :=
  (xs.filter fun t => t == s).length

/-- Counter(xs).most_common(1)[0]: the value with the largest count; ties are
broken by first occurrence (Counter preserves insertion order and most_common
sorts stably). -/
def modalOf (xs : List String) : Option (String × Nat) :=
  (firstOccurrences xs).foldl
    (fun acc s =>
      match acc with
      | none => some (s, countOf xs s)
      | some (m, c) => if countOf xs s > c then some (s, countOf xs s) else some (m, c))
    none

/-- Python max(agreers, key=getattr confidence default 0): scan keeping the
first element, replacing only on a strictly greater key. -/
def maxByConf : List QObj → QObj → QObj
  | [], best => best
  | o :: os, best =>
      maxByConf os (if o.confidence.getD 0 > best.confidence.getD 0 then o else best)

/-- Selection among the agreeing successes: agreers[0], then max by confidence
when agreers[0] has a confidence attribute. -/
def bestOf : List QObj → Option QObj
  | [] => none
  | first :: rest => some (if first.confidence.isSome then maxByConf rest first else first)

/-- decorators._execute_quorum, applied to the gathered branch outcomes (in
task order, exceptions captured as error values by return_exceptions=True). -/
def executeQuorum (fname : String) (n k : Nat)
    (outcomes : List (Except String QObj)) : QuorumResult :=
  let successes := successesOf outcomes
  if successes.isEmpty then
    match firstErrorOf outcomes with
    | some e => .reraisedFirstFailure e
    | none => .internalError "StopIteration"
  else
    match modalOf (successes.map QObj.agree) with
    | none => .internalError "IndexError"
    | some (modalStr, modalCount) =>
      if modalCount < k then .consensusFailure fname n k outcomes
      else
        match bestOf (successes.filter fun o => o.agree == modalStr) with
        | some b => .ok b
        | none => .internalError "IndexError"

/-- Decision value offered to a PendingReview (hitl.py); the constructor tells
its Python runtime type. -/
inductive DVal where
  | vstr (s : String)
  | vint (n : Int)
  | vbool (b : Bool)
deriving DecidableEq, Repr

/-- Expected decision type of a PendingReview; dobj is the `object` default,
which every value satisfies. -/
inductive DType where
  | dstr
  | dint
  | dbool
  | dobj
deriving DecidableEq, Repr

/-- Python isinstance on the modelled values.  bool is a subclass of int. -/
def isinstance : DVal → DType → Bool
  | _, .dobj => true
  | .vstr _, .dstr => true
  | .vint _, .dint => true
  | .vbool _, .dint => true
  | .vbool _, .dbool => true
  | _, _ => false

/-- HumanDecision from types.py, restricted to the fields resolve touches. -/
structure HumanDecision where
  value : DVal
  reviewer : Option String
  rationale : Option String
  reviewId : String
deriving DecidableEq, Repr

/-- Completion slot of a PendingReview: no future attached, a pending future,
or a future already fulfilled with a decision. -/
inductive ReviewSlot where
  | noFuture
  | pending
  | done (d : HumanDecision)
deriving DecidableEq, Repr

/-- PendingReview from hitl.py, restricted to the fields resolve touches. -/
structure PendingReview where
  reviewId : String
  decisionType : DType
  slot : ReviewSlot
deriving DecidableEq, Repr

/-- PendingReview.resolve: validate decision type (TypeError on mismatch, the
review left untouched), then fulfil the future only if present and not done. -/
def PendingReview.resolve (r : PendingReview) (d : HumanDecision) :
    Except String PendingReview :=
  if !(isinstance d.value r.decisionType) then
    .error ("Expected decision.value of type " ++ toString (repr r.decisionType)
      ++ ", got " ++ toString (repr d.value))
  else
    match r.slot with
    | .pending => .ok { r with slot := .done d }
    | _ => .ok r

/-- ConsoleReviewSink._collect_input offer loop: each offered decision is passed
to resolve; a TypeError keeps the old state and the loop re-prompts. -/
def offerAll (r : PendingReview) (ds : List HumanDecision) : PendingReview :=
  ds.foldl (fun st d => match st.resolve d with | .ok st1 => st1 | .error _ => st) r

/-- Names exposed to ensure expressions besides the empty __builtins__
(stratum-mcp executor.py _ENSURE_BUILTINS). -/
def ensureBuiltinNames : List String :=
  ["file_exists", "file_contains", "len", "bool", "int", "str"]

/-- Compiled ensure evaluator: the expression together with the global names
its evaluation environment exposes (the builtins whitelist; __builtins__ is
empty). -/
structure CompiledEnsure where
  expr : String
  globalNames : List String
deriving DecidableEq, Repr

/-- stratum_mcp compile_ensure.  The dunder guard is the repo's; the Python
expression compiler is external and supplied as pySyntaxOk. -/
def compile_ensure (pySyntaxOk : String → Bool) (expr : String) :
    Except String CompiledEnsure :=
  if strContains expr "__" then
    .error ("Ensure expression may not contain dunder attributes: " ++ expr)
  else if pySyntaxOk expr then
    .ok { expr := expr, globalNames := ensureBuiltinNames }
  else
    .error ("Cannot compile ensure expression: " ++ expr)

/-- Cache policy of an infer spec (the `cache` string of @infer). -/
inductive CachePolicy where
  | cnone
  | csession
  | cglobal
deriving DecidableEq, Repr

/-- One tool call inside a provider response. -/
structure ToolCall where
  arguments : String
deriving DecidableEq, Repr

/-- Provider response as far as executor.py reads it: the tool calls of the
first choice (an empty list models a falsy tool_calls), and the outcome of
litellm.completion_cost (none models that the estimator raised, which the
executor converts to cost 0.0). -/
structure LLMResponse where
  toolCalls : List ToolCall
  costReported : Option Rat
deriving DecidableEq, Repr

/-- Behaviour of the provider adapter on one call: asyncio.TimeoutError, any
other raised exception, or a response. -/
inductive CallEvent where
  | timeout
  | raiseErr (msg : String)
  | reply (resp : LLMResponse)
deriving DecidableEq, Repr

/-- InferSpec restricted to the fields execute_infer reads on the modelled
paths.  Predicates carry their Python __name__ (the empty string or "<lambda>"
play the unnamed role); Except.error models the predicate raising.  The fields
fn, temperature, stable, quorum, agree_on, threshold, return_type and
parameters are handled outside the retry loop (wrapper, call kwargs, schema
resolution) and appear here only through opaqueParams and contractHash. -/
structure ExecSpec (α : Type) where
  fnName : String
  fnQualname : String
  intent : String
  context : List String
  ensure : List (String × (α → Except String Bool))
  given : List (String × (List (String × PVal) → Except String Bool))
  model : Option String
  budget : Option Budget
  retries : Nat
  cache : CachePolicy
  opaqueParams : List String
  contractHash : String

/-- Exceptions execute_infer can surface.  adapterRaised is an exception of the
provider call propagating uncaught; compileError is StratumCompileError from
compile_prompt. -/
inductive ExecErr where
  | compileError (msg : String)
  | preconditionFailed (fn cond : String)
  | budgetExceeded (fn : String)
  | parseFailure (fn msg : String)
  | postconditionFailed (fn : String) (violations : List String) (history : List (List String))
  | adapterRaised (msg : String)
deriving DecidableEq, Repr

/-- TraceRecord from trace.py (review_id is always None in execute_infer and
omitted). -/
structure TraceRecord (α : Type) where
  function : String
  model : String
  inputs : List (String × PVal)
  compiledPromptHash : String
  contractHash : String
  attempts : Nat
  output : Option α
  durationMs : Int
  costUsd : Option Rat
  cacheHit : Bool
  retryReasons : List String
  flowId : Option String

/-- Observable outcome of one execute_infer invocation: its return or raised
exception, the trace records it appended, the number of provider calls it
made, the timeout passed to each call in order, and the caches after it. -/
structure ExecResult (α : Type) where
  result : Except ExecErr α
  trace : List (TraceRecord α)
  providerCalls : Nat
  timeouts : List (Option Rat)
  sessionCache : List (String × α)
  globalCache : List (String × α)

/-- Association-list lookup modelling a dict read. -/
def assocFind {β : Type} (k : String) : List (String × β) → Option β
  | [] => none
  | (k1, v) :: rest => if k1 == k then some v else assocFind k rest

/-- Violation string of one ensure predicate (executor.py lines 374-386 and
_run_ensure): index i is 0-based, messages display i+1. -/
def violationText (i : Nat) (name : String) (outcome : Except String Bool) : Option String :=
  match outcome with
  | .error e => some ("ensure condition " ++ toString (i + 1) ++ " raised: " ++ e)
  | .ok true => none
  | .ok false =>
      if !(name == "") && !(name == "<lambda>") then
        some ("ensure: " ++ name ++ "(result) was False")
      else
        some ("ensure condition " ++ toString (i + 1) ++ " failed")

/-- All violation strings of the ensure predicates against a value. -/
def violationsOf {α : Type} (ensure : List (String × (α → Except String Bool))) (v : α) : List String :=
  ensure.enum.filterMap fun p => violationText p.1 p.2.1 (p.2.2 v)

/-- Precondition pass (executor.py lines 151-158): the first raising or false
given predicate raises PreconditionFailed immediately. -/
def runGiven (fn : String) (given : List (String × (List (String × PVal) → Except String Bool)))
    (inputs : List (String × PVal)) : Except ExecErr Unit :=
  match given with
  | [] => .ok ()
  | (nm, g) :: rest =>
    match g inputs with
    | .error e => .error (.preconditionFailed fn e)
    | .ok false => .error (.preconditionFailed fn nm)
    | .ok true => runGiven fn rest inputs

/-- executor._run_ensure: collect every violation, then raise
PostconditionFailed carrying them if any. -/
def runEnsureOrRaise {α : Type} (fn : String) (ensure : List (String × (α → Except String Bool)))
    (v : α) : Except ExecErr Unit :=
  let vs := violationsOf ensure v
  if vs.isEmpty then .ok () else .error (.postconditionFailed fn vs [vs])

/-- Clock reading for the i-th time query; index 0 is invocation entry and
index k+1 is attempt k.  The invocation supplies the monotonic readings. -/
def timeAt (times : List Rat) (i : Nat) : Rat := times.getD i 0

/-- Trace record of a cache hit (executor.py lines 202-215 / 223-236):
attempts 0, duration 0, no cost, prompt hash "none" since last_prompt is
empty. -/
def cacheHitRecord {α : Type} (spec : ExecSpec α) (defaultModel : String)
    (inputs : List (String × PVal)) (v : α) (flowId : Option String) : TraceRecord α :=
  { function := spec.fnQualname
    model := spec.model.getD defaultModel
    inputs := inputs
    compiledPromptHash := "none"
    contractHash := spec.contractHash
    attempts := 0
    output := some v
    durationMs := 0
    costUsd := none
    cacheHit := true
    retryReasons := []
    flowId := flowId }

/-- Retry loop of execute_infer (lines 251-441).  fuel is the number of
attempts still allowed (initially retries+1); attempt counts completed
attempts, each of which made exactly one provider call.  The wall clock is
coarse: one monotonic reading per attempt serves the budget check, the timeout
computation and the duration.  parseArgs is the external json.loads /
primitive-unwrap / pydantic-instantiate pipeline of attempt steps g-i; its
error string is the parse-class reason. -/
def retryLoop {α : Type} (spec : ExecSpec α) (inputs : List (String × PVal)) (ih : String)
    (parseArgs : String → Except String α) (events : Nat → CallEvent)
    (times : List Rat) (startT : Rat) (flowId : Option String) (defaultModel : String)
    (sessionCache globalCache : List (String × α))
    (budget : Option Budget) (attempt : Nat)
    (retryReasons allRetryReasons : List String) (retryHistory : List (List String))
    (totalCost : Rat) (lastFailureWasParse : Bool)
    (timeoutsSoFar : List (Option Rat)) (fuel : Nat) : ExecResult α :=
  match fuel with
  | 0 =>
    if lastFailureWasParse && !retryReasons.isEmpty then
      ⟨.error (.parseFailure spec.fnName (String.intercalate "; " retryReasons)),
        [], attempt, timeoutsSoFar, sessionCache, globalCache⟩
    else
      ⟨.error (.postconditionFailed spec.fnName retryReasons retryHistory),
        [], attempt, timeoutsSoFar, sessionCache, globalCache⟩
  | fuel1 + 1 =>
    let now := timeAt times (attempt + 1)
    if (budget.map Budget.is_cost_exceeded).getD false then
      ⟨.error (.budgetExceeded spec.fnName), [], attempt, timeoutsSoFar,
        sessionCache, globalCache⟩
    else if (budget.bind fun b => b.remaining_seconds now).elim false (fun r => decide (r ≤ 0)) then
      ⟨.error (.budgetExceeded spec.fnName), [], attempt, timeoutsSoFar,
        sessionCache, globalCache⟩
    else
      match compile_prompt spec.intent spec.context inputs spec.opaqueParams retryReasons with
      | .error e =>
        ⟨.error (.compileError e), [], attempt, timeoutsSoFar, sessionCache, globalCache⟩
      | .ok prompt =>
        let timeoutSecs := budget.bind fun b => b.remaining_seconds now
        let timeouts := timeoutsSoFar ++ [timeoutSecs]
        match events attempt with
        | .timeout =>
          ⟨.error (.budgetExceeded spec.fnName), [], attempt + 1, timeouts,
            sessionCache, globalCache⟩
        | .raiseErr msg =>
          ⟨.error (.adapterRaised msg), [], attempt + 1, timeouts,
            sessionCache, globalCache⟩
        | .reply resp =>
          let cost := resp.costReported.getD 0
          let budget1 := if cost = 0 then budget else budget.map fun b => b.record_cost cost
          let totalCost1 := if cost = 0 then totalCost else totalCost + cost
          match resp.toolCalls with
          | [] =>
            let reason := "Failed to extract tool call: No tool call in response"
            retryLoop spec inputs ih parseArgs events times startT flowId defaultModel
              sessionCache globalCache budget1 (attempt + 1)
              [reason] (allRetryReasons ++ [reason]) (retryHistory ++ [[reason]])
              totalCost1 true timeouts fuel1
          | tc :: _ =>
            match parseArgs tc.arguments with
            | .error msg =>
              retryLoop spec inputs ih parseArgs events times startT flowId defaultModel
                sessionCache globalCache budget1 (attempt + 1)
                [msg] (allRetryReasons ++ [msg]) (retryHistory ++ [[msg]])
                totalCost1 true timeouts fuel1
            | .ok parsed =>
              let vs := violationsOf spec.ensure parsed
              if vs.isEmpty then
                let durationMs : Int := (now - startT).floor
                let costUsd : Option Rat := if 0 < totalCost1 then some totalCost1 else none
                let rec1 : TraceRecord α :=
                  { function := spec.fnQualname
                    model := spec.model.getD defaultModel
                    inputs := inputs
                    compiledPromptHash := if prompt == "" then "none" else prompt_hash prompt
                    contractHash := spec.contractHash
                    attempts := attempt + 1
                    output := some parsed
                    durationMs := durationMs
                    costUsd := costUsd
                    cacheHit := false
                    retryReasons := allRetryReasons
                    flowId := flowId }
                let sc := if spec.cache = .csession then
                    (spec.fnQualname ++ ":" ++ ih, parsed) :: sessionCache else sessionCache
                let gc := if spec.cache = .cglobal then
                    (spec.fnQualname ++ ":" ++ ih ++ ":" ++ spec.contractHash, parsed) :: globalCache
                  else globalCache
                ⟨.ok parsed, [rec1], attempt + 1, timeouts, sc, gc⟩
              else
                retryLoop spec inputs ih parseArgs events times startT flowId defaultModel
                  sessionCache globalCache budget1 (attempt + 1)
                  vs (allRetryReasons ++ vs) (retryHistory ++ [vs])
                  totalCost1 false timeouts fuel1

/-- Cache lookup of execute_infer (lines 195-237): session keys are
qualname:inputs_hash against the flow session map, global keys additionally
carry the contract hash against the process map. -/
def cacheLookup {α : Type} (spec : ExecSpec α) (ih : String)
    (sessionCache globalCache : List (String × α)) : Option α :=
  match spec.cache with
  | .csession => assocFind (spec.fnQualname ++ ":" ++ ih) sessionCache
  | .cglobal => assocFind (spec.fnQualname ++ ":" ++ ih ++ ":" ++ spec.contractHash) globalCache
  | .cnone => none

/-- Effective budget of an invocation (executor.py line 166): the step budget
cloned at entry when declared, else the ambient flow budget. -/
def effBudget (specBudget flowBudget : Option Budget) (t0 : Rat) : Option Budget :=
  match specBudget with
  | some b => some (b.clone t0)
  | none => flowBudget

/-- executor.execute_infer.  ih is the stable input hash computed by
_inputs_hash (stdlib json canonicalisation, external); sessionCache is the
session map applicable to the ambient flow (or the process fallback);
defaultModel is get_config()["default_model"].  The tracer export hook does
not touch the in-memory trace log and is not modelled. -/
def execute_infer {α : Type} (spec : ExecSpec α) (inputs : List (String × PVal)) (ih : String)
    (flowBudget : Option Budget) (flowId : Option String)
    (sessionCache globalCache : List (String × α))
    (parseArgs : String → Except String α) (events : Nat → CallEvent)
    (times : List Rat) (defaultModel : String) : ExecResult α :=
  match runGiven spec.fnName spec.given inputs with
  | .error e => ⟨.error e, [], 0, [], sessionCache, globalCache⟩
  | .ok () =>
    let t0 := timeAt times 0
    let budget := effBudget spec.budget flowBudget t0
    match cacheLookup spec ih sessionCache globalCache with
    | some v =>
      match runEnsureOrRaise spec.fnName spec.ensure v with
      | .error e => ⟨.error e, [], 0, [], sessionCache, globalCache⟩
      | .ok () =>
        ⟨.ok v, [cacheHitRecord spec defaultModel inputs v flowId], 0, [],
          sessionCache, globalCache⟩
    | none =>
      retryLoop spec inputs ih parseArgs events times t0 flowId defaultModel
        sessionCache globalCache budget 0 [] [] [] 0 true [] (spec.retries + 1)

/-- Timeout the executor would pass to the provider call of attempt k: the
effective budget's remaining seconds at that attempt's clock reading. -/
def timePlan (budget : Option Budget) (times : List Rat) (k : Nat) : Option Rat :=
  budget.bind fun b => b.remaining_seconds (timeAt times (k + 1))

/-- Concrete spec whose single attempt fails its postcondition (retry ceiling
0, no cache, no budget). -/
def specEnsureFails : ExecSpec Nat :=
  { fnName := "f", fnQualname := "f", intent := "intent", context := []
    ensure := [("bad", fun _ => .ok false)], given := [], model := none
    budget := none, retries := 0, cache := .cnone, opaqueParams := []
    contractHash := "none" }

/-- Concrete spec whose single attempt succeeds (no postconditions). -/
def specPlain : ExecSpec Nat :=
  { fnName := "s", fnQualname := "s", intent := "intent", context := []
    ensure := [], given := [], model := none
    budget := none, retries := 0, cache := .cnone, opaqueParams := []
    contractHash := "none" }

/-- Concrete spec with a 10-second per-step budget. -/
def specStepBudget : ExecSpec Nat :=
  { fnName := "g", fnQualname := "g", intent := "intent", context := []
    ensure := [], given := [], model := none
    budget := some ⟨some 10000, none, 0, 0⟩, retries := 0, cache := .cnone
    opaqueParams := [], contractHash := "none" }

/-- Flow budget of 60 seconds created 59 seconds before the clock origin, so
one second remains at time 0. -/
def flowBudgetNearlySpent : Budget := ⟨some 60000, none, -59000, 0⟩

/-- Concrete spec with retry ceiling 2 (three attempts allowed). -/
def specRetries2 : ExecSpec Nat :=
  { fnName := "h", fnQualname := "h", intent := "intent", context := []
    ensure := [], given := [], model := none
    budget := none, retries := 2, cache := .cnone, opaqueParams := []
    contractHash := "none" }

/-- Concrete session-cached spec whose postcondition requires the value to
exceed 5. -/
def specSessionCached : ExecSpec Nat :=
  { fnName := "c", fnQualname := "c", intent := "intent", context := []
    ensure := [("big", fun n => .ok (decide (5 < n)))], given := [], model := none
    budget := none, retries := 0, cache := .csession, opaqueParams := []
    contractHash := "chash" }

lemma pyMax0_mono {a b : Rat} (h : a ≤ b) : pyMax 0 a ≤ pyMax 0 b := by
  unfold pyMax
  split <;> split <;> try linarith

/-- C8: Budget.remaining_seconds is non-increasing as the monotonic clock
advances, and once is_cost_exceeded has returned true, no sequence of further
record_cost charges (costs are non-negative) makes it false again. -/
theorem budget_monotone_and_cost_latch :
    (∀ (b : Budget) (t1 t2 r1 r2 : Rat), t1 ≤ t2 →
        b.remaining_seconds t1 = some r1 → b.remaining_seconds t2 = some r2 → r2 ≤ r1) ∧
    (∀ (b : Budget) (costs : List Rat), (∀ c ∈ costs, 0 ≤ c) →
        b.is_cost_exceeded = true → (costs.foldl Budget.record_cost b).is_cost_exceeded = true) := by
  constructor
  · intro b t1 t2 r1 r2 ht h1 h2
    unfold Budget.remaining_seconds at h1 h2
    cases hms : b.ms with
    | none => rw [hms] at h1; cases h1
    | some m =>
      rw [hms] at h1 h2
      injection h1 with h1
      injection h2 with h2
      subst h1; subst h2
      apply pyMax0_mono
      have h1000 : (0 : Rat) < 1000 := by norm_num
      rw [div_le_div_iff₀ h1000 h1000]
      nlinarith
  · intro b costs
    induction costs generalizing b with
    | nil => intro _ h; simpa using h
    | cons c cs ih =>
      intro hnn h
      simp only [List.foldl_cons]
      apply ih
      · intro x hx; exact hnn x (List.mem_cons_of_mem _ hx)
      · unfold Budget.is_cost_exceeded at h ⊢
        cases husd : b.usd with
        | none => rw [husd] at h; cases h
        | some u =>
          rw [husd] at h
          simp only [Budget.record_cost, husd, decide_eq_true_eq] at h ⊢
          have hc : (0 : Rat) ≤ c := hnn c (List.mem_cons_self _ _)
          linarith

/-- Witness for C8 at a concrete budget, clock pair and cost list. -/
theorem budget_monotone_and_cost_latch_witness :
    ((3 : Rat) ≤ 4) ∧
    (([(1 : Rat)].foldl Budget.record_cost ⟨some 5000, some 1, 0, 2⟩).is_cost_exceeded = true) :=
  ⟨budget_monotone_and_cost_latch.1 ⟨some 5000, some 1, 0, 2⟩ 1000 2000 4 3 (by norm_num)
      (by with_unfolding_all decide) (by with_unfolding_all decide),
   budget_monotone_and_cost_latch.2 ⟨some 5000, some 1, 0, 2⟩ [1]
      (by intro c hc; simp at hc; simp [hc]) (by decide)⟩

/-- C9: an ensure expression containing a dunder-name token (hence the
substring __) fails to compile with EnsureCompileError regardless of the
Python expression compiler, and any successfully compiled ensure evaluates in
an environment whose globals are exactly the empty __builtins__ plus the
whitelist len, bool, int, str, file_exists, file_contains. -/
theorem ensure_dunder_guard :
    (∀ (pySyntaxOk : String → Bool) (expr : String), strContains expr "__" = true →
        ∃ msg, compile_ensure pySyntaxOk expr = .error msg) ∧
    (∀ (pySyntaxOk : String → Bool) (expr : String) (ev : CompiledEnsure),
        compile_ensure pySyntaxOk expr = .ok ev →
        ev.globalNames = ensureBuiltinNames ∧ ev.expr = expr) := by
  constructor
  · intro pySyntaxOk expr h
    refine ⟨"Ensure expression may not contain dunder attributes: " ++ expr, ?_⟩
    unfold compile_ensure
    rw [h]
    simp
  · intro pySyntaxOk expr ev h
    unfold compile_ensure at h
    split at h
    · cases h
    · split at h
      · injection h with h
        subst h
        exact ⟨rfl, rfl⟩
      · cases h

/-- Witness for C9: a dunder expression is rejected and a clean expression
compiles to an evaluator over exactly the whitelist. -/
theorem ensure_dunder_guard_witness :
    (∃ msg, compile_ensure (fun _ => true) "len(result.__dict__) > 0" = Except.error msg) ∧
    ((⟨"result.confidence > 0.9", ensureBuiltinNames⟩ : CompiledEnsure).globalNames
        = ensureBuiltinNames
      ∧ (⟨"result.confidence > 0.9", ensureBuiltinNames⟩ : CompiledEnsure).expr
        = "result.confidence > 0.9") :=
  ⟨ensure_dunder_guard.1 (fun _ => true) "len(result.__dict__) > 0" (by decide),
   ensure_dunder_guard.2 (fun _ => true) "result.confidence > 0.9"
      ⟨"result.confidence > 0.9", ensureBuiltinNames⟩ (by decide)⟩

lemma resolve_mismatch (r : PendingReview) (d : HumanDecision)
    (h : isinstance d.value r.decisionType = false) :
    r.resolve d = .error ("Expected decision.value of type " ++ toString (repr r.decisionType)
      ++ ", got " ++ toString (repr d.value)) := by
  unfold PendingReview.resolve
  rw [h]
  simp

lemma resolve_ok_done (r : PendingReview) (d d0 : HumanDecision)
    (hty : isinstance d.value r.decisionType = true) (h : r.slot = .done d0) :
    r.resolve d = .ok r := by
  unfold PendingReview.resolve
  rw [hty]
  simp [h]

lemma resolve_ok_pending (r : PendingReview) (d : HumanDecision)
    (hty : isinstance d.value r.decisionType = true) (h : r.slot = .pending) :
    r.resolve d = .ok { r with slot := .done d } := by
  unfold PendingReview.resolve
  rw [hty]
  simp [h]

lemma offerAll_done (ds : List HumanDecision) (r : PendingReview) (d0 : HumanDecision)
    (h : r.slot = .done d0) : offerAll r ds = r := by
  induction ds with
  | nil => rfl
  | cons d ds ih =>
    show offerAll r (d :: ds) = r
    unfold offerAll
    rw [List.foldl_cons]
    by_cases hty : isinstance d.value r.decisionType = true
    · rw [resolve_ok_done r d d0 hty h]
      exact ih
    · rw [resolve_mismatch r d (by simpa using hty)]
      exact ih

/-- C10: resolving with a type-mismatched decision raises TypeError and leaves
the review untouched; a type-correct resolve on an already-resolved review is
a no-op returning the review unchanged; consequently, offering any sequence of
decisions to a pending review delivers exactly the first type-correct one (and
none when no offered decision type-checks). -/
theorem review_first_type_correct_decision :
    (∀ (r : PendingReview) (d : HumanDecision),
        isinstance d.value r.decisionType = false → ∃ msg, r.resolve d = .error msg) ∧
    (∀ (r : PendingReview) (d d0 : HumanDecision),
        isinstance d.value r.decisionType = true → r.slot = .done d0 → r.resolve d = .ok r) ∧
    (∀ (r : PendingReview) (ds : List HumanDecision), r.slot = .pending →
        (offerAll r ds).slot
            = ((ds.find? fun d => isinstance d.value r.decisionType).elim ReviewSlot.pending .done)
          ∧ (offerAll r ds).reviewId = r.reviewId
          ∧ (offerAll r ds).decisionType = r.decisionType) := by
  refine ⟨?_, ?_, ?_⟩
  · intro r d h
    exact ⟨_, resolve_mismatch r d h⟩
  · intro r d d0 hty hdone
    exact resolve_ok_done r d d0 hty hdone
  · intro r ds hpending
    induction ds with
    | nil => exact ⟨by simpa [offerAll] using hpending, rfl, rfl⟩
    | cons d ds ih =>
      by_cases hty : isinstance d.value r.decisionType = true
      · have hstep : offerAll r (d :: ds) = offerAll { r with slot := .done d } ds := by
          unfold offerAll
          rw [List.foldl_cons, resolve_ok_pending r d hty hpending]
        rw [hstep, offerAll_done ds { r with slot := .done d } d rfl]
        refine ⟨?_, rfl, rfl⟩
        simp [List.find?, hty]
      · have hfalse : isinstance d.value r.decisionType = false := by simpa using hty
        have hstep : offerAll r (d :: ds) = offerAll r ds := by
          unfold offerAll
          rw [List.foldl_cons, resolve_mismatch r d hfalse]
        rw [hstep]
        obtain ⟨h1, h2, h3⟩ := ih
        refine ⟨?_, h2, h3⟩
        rw [h1]
        simp [List.find?, hfalse]

/-- Witness for C10: a pending int review offered a string, then two ints,
delivers exactly the first int decision. -/
theorem review_first_type_correct_decision_witness :
    ((⟨"r1", DType.dint, .pending⟩ : PendingReview).slot = .pending) ∧
    ((offerAll ⟨"r1", DType.dint, .pending⟩
        [⟨.vstr "no", none, none, "r1"⟩, ⟨.vint 5, none, none, "r1"⟩,
         ⟨.vint 7, none, none, "r1"⟩]).slot
      = (([⟨.vstr "no", none, none, "r1"⟩, ⟨.vint 5, none, none, "r1"⟩,
           ⟨.vint 7, none, none, "r1"⟩].find?
            fun d => isinstance d.value (⟨"r1", DType.dint, .pending⟩ : PendingReview).decisionType).elim
          ReviewSlot.pending ReviewSlot.done)) :=
  ⟨rfl,
   (review_first_type_correct_decision.2.2 ⟨"r1", DType.dint, .pending⟩
      [⟨.vstr "no", none, none, "r1"⟩, ⟨.vint 5, none, none, "r1"⟩,
       ⟨.vint 7, none, none, "r1"⟩] rfl).1⟩

/-- C5: whenever the opaque-reference guard passes, the compiled prompt is
exactly the claim's fixed assembly — a pure function of (intent, context,
non-opaque inputs, retry reasons, opaque field names), hence byte-identical
across runs — and the prompt hash is the first 12 hex characters of the
SHA-256 of that text, hence equally stable. -/
theorem compile_prompt_fixed_assembly (intent : String) (context : List String)
    (inputs : List (String × PVal)) (opaqueFields : List String)
    (retryReasons : List String)
    (h : opaqueRefViolation intent context opaqueFields = false) :
    compile_prompt intent context inputs opaqueFields retryReasons
        = .ok (claimPromptText intent context inputs opaqueFields retryReasons)
      ∧ prompt_hash (claimPromptText intent context inputs opaqueFields retryReasons)
        = (sha256HexOfBytes (strBytes
            (claimPromptText intent context inputs opaqueFields retryReasons))).take 12 := by
  constructor
  · unfold compile_prompt
    rw [h]
    simp only [Bool.false_eq_true, if_false]
    unfold promptParts claimPromptText
    rfl
  · rfl

/-- Witness for C5 at a concrete prompt-compilation tuple with a context
annotation to skip, an opaque input and a retry reason. -/
theorem compile_prompt_fixed_assembly_witness :
    (opaqueRefViolation "Summarize the text" ["Be brief", ""] ["blob"] = false) ∧
    (compile_prompt "Summarize the text" ["Be brief", ""]
        [("text", .vstr "hello"), ("blob", .vother "42")] ["blob"] ["too long"]
      = .ok (claimPromptText "Summarize the text" ["Be brief", ""]
          [("text", .vstr "hello"), ("blob", .vother "42")] ["blob"] ["too long"])) :=
  ⟨by decide,
   (compile_prompt_fixed_assembly "Summarize the text" ["Be brief", ""]
      [("text", .vstr "hello"), ("blob", .vother "42")] ["blob"] ["too long"]
      (by decide)).1⟩

lemma nonOpaque_congr {opaqueFields : List String} {i1 i2 : List (String × PVal)}
    (h : List.Forall₂
        (fun a b => a.1 = b.1 ∧ (opaqueFields.contains a.1 = false → a.2 = b.2)) i1 i2) :
    nonOpaqueInputs i1 opaqueFields = nonOpaqueInputs i2 opaqueFields := by
  induction h with
  | nil => rfl
  | cons hab hrest ih =>
    rename_i a b l1 l2
    obtain ⟨hk, hv⟩ := hab
    unfold nonOpaqueInputs at ih ⊢
    rw [List.filter_cons, List.filter_cons]
    cases hc : opaqueFields.contains a.1 with
    | true =>
      have hb : opaqueFields.contains b.1 = true := by rw [← hk]; exact hc
      rw [hb]
      simpa using ih
    | false =>
      have hb : opaqueFields.contains b.1 = false := by rw [← hk]; exact hc
      have hab2 : a = b := Prod.ext hk (hv hc)
      rw [hb, hab2]
      simpa using ih

/-- C6: two prompt compilations that differ only in the values bound to
opaque-tagged parameters (same keys in the same order, equal values on every
non-opaque parameter) produce identical results — opaque values never
influence, and hence never appear in, the compiled prompt text. -/
theorem compile_prompt_opaque_noninterference (intent : String) (context : List String)
    (opaqueFields : List String) (retryReasons : List String)
    (i1 i2 : List (String × PVal))
    (h : List.Forall₂
        (fun a b => a.1 = b.1 ∧ (opaqueFields.contains a.1 = false → a.2 = b.2)) i1 i2) :
    compile_prompt intent context i1 opaqueFields retryReasons
      = compile_prompt intent context i2 opaqueFields retryReasons := by
  unfold compile_prompt
  split
  · rfl
  · unfold promptParts
    rw [nonOpaque_congr h]

/-- Witness for C6: changing only the opaque value leaves the compiled prompt
unchanged. -/
theorem compile_prompt_opaque_noninterference_witness :
    (List.Forall₂
        (fun a b => a.1 = b.1 ∧ ((["secret"] : List String).contains a.1 = false → a.2 = b.2))
        [("q", PVal.vstr "hi"), ("secret", PVal.vstr "AAA")]
        [("q", PVal.vstr "hi"), ("secret", PVal.vstr "BBB")]) ∧
    (compile_prompt "Answer" [] [("q", PVal.vstr "hi"), ("secret", PVal.vstr "AAA")]
        ["secret"] []
      = compile_prompt "Answer" [] [("q", PVal.vstr "hi"), ("secret", PVal.vstr "BBB")]
        ["secret"] []) :=
  ⟨List.Forall₂.cons ⟨rfl, fun _ => rfl⟩
      (List.Forall₂.cons ⟨rfl, fun hc => absurd hc (by decide)⟩ List.Forall₂.nil),
   compile_prompt_opaque_noninterference "Answer" [] ["secret"] []
      [("q", PVal.vstr "hi"), ("secret", PVal.vstr "AAA")]
      [("q", PVal.vstr "hi"), ("secret", PVal.vstr "BBB")]
      (List.Forall₂.cons ⟨rfl, fun _ => rfl⟩
        (List.Forall₂.cons ⟨rfl, fun hc => absurd hc (by decide)⟩ List.Forall₂.nil))⟩

lemma modalOf_ne_nil {xs : List String} {p : String × Nat} (h : modalOf xs = some p) :
    xs ≠ [] := by
  intro hx
  rw [hx] at h
  simp [modalOf, firstOccurrences] at h

/-- C3 (amended): quorum outcomes are partitioned by the string rendering of
the agree-on field; when the largest partition reaches the threshold K the
result is that partition's highest-confidence element (when its first element
has a confidence attribute, else its first element); when the largest
partition is below K — including when some but fewer than K branches succeed —
ConsensusFailure(step, N, K, all outputs) is raised; the first failure
exception is re-raised only when no branch succeeds. -/
theorem quorum_selection_characterization (fname : String) (n k : Nat)
    (outcomes : List (Except String QObj)) :
    (successesOf outcomes = [] → ∀ e, firstErrorOf outcomes = some e →
        executeQuorum fname n k outcomes = .reraisedFirstFailure e)
    ∧ (∀ ms mc, modalOf ((successesOf outcomes).map QObj.agree) = some (ms, mc) →
        ((mc < k → executeQuorum fname n k outcomes = .consensusFailure fname n k outcomes)
          ∧ (¬ mc < k →
              ∀ b, bestOf ((successesOf outcomes).filter fun o => o.agree == ms) = some b →
                executeQuorum fname n k outcomes = .ok b))) := by
  constructor
  · intro hemp e he
    simp [executeQuorum, hemp, he]
  · intro ms mc hmodal
    have hne : (successesOf outcomes).isEmpty = false := by
      cases hx : (successesOf outcomes).isEmpty with
      | false => rfl
      | true =>
        exfalso
        apply modalOf_ne_nil hmodal
        rw [List.isEmpty_iff] at hx
        rw [hx]
        rfl
    constructor
    · intro hlt
      simp [executeQuorum, hne, hmodal, hlt]
    · intro hge b hb
      simp [executeQuorum, hne, hmodal, hge, hb]

/-- Counterexample to C3 as stated: with N = 3, K = 2 and a single success,
fewer than K branches succeed, yet the code raises ConsensusFailure rather
than re-raising the first failure exception. -/
theorem quorum_partial_success_counterexample :
    executeQuorum "q" 3 2
        [.ok ⟨"yes", none, 0⟩, .error "boom1", .error "boom2"]
      = .consensusFailure "q" 3 2 [.ok ⟨"yes", none, 0⟩, .error "boom1", .error "boom2"]
    ∧ (successesOf [.ok ⟨"yes", none, 0⟩, .error "boom1", .error "boom2"]).length = 1
    ∧ executeQuorum "q" 3 2 [.ok ⟨"yes", none, 0⟩, .error "boom1", .error "boom2"]
        ≠ .reraisedFirstFailure "boom1" := by
  refine ⟨by decide, by decide, by decide⟩

/-- Witness for C3 (amended) at spec scenario 4: three successes with labels
yes/yes/no and confidences 0.7/0.95/0.8 (scaled to percent) return the
highest-confidence agreeing object. -/
theorem quorum_selection_characterization_witness :
    (modalOf ((successesOf
        [.ok ⟨"yes", some 70, 0⟩, .ok ⟨"yes", some 95, 1⟩, .ok ⟨"no", some 80, 2⟩]).map
          QObj.agree) = some ("yes", 2)) ∧
    (executeQuorum "vote" 3 2
        [.ok ⟨"yes", some 70, 0⟩, .ok ⟨"yes", some 95, 1⟩, .ok ⟨"no", some 80, 2⟩]
      = .ok ⟨"yes", some 95, 1⟩) :=
  ⟨by decide,
   ((quorum_selection_characterization "vote" 3 2
        [.ok ⟨"yes", some 70, 0⟩, .ok ⟨"yes", some 95, 1⟩, .ok ⟨"no", some 80, 2⟩]).2
      "yes" 2 (by decide)).2 (by decide) ⟨"yes", some 95, 1⟩ (by decide)⟩

lemma timePlan_record (budget : Option Budget) (c : Rat) (times : List Rat) (k : Nat) :
    timePlan (if c = 0 then budget else budget.map fun b => b.record_cost c) times k
      = timePlan budget times k := by
  by_cases hc : c = 0
  · simp [hc]
  · cases budget with
    | none => simp [hc, timePlan]
    | some b => simp [hc, timePlan, Budget.record_cost, Budget.remaining_seconds]

lemma timePlan_record_fun (budget : Option Budget) (c : Rat) (times : List Rat) :
    timePlan (if c = 0 then budget else budget.map fun b => b.record_cost c) times
      = timePlan budget times :=
  funext fun k => timePlan_record budget c times k

lemma retryLoop_shape {α : Type} (spec : ExecSpec α) (inputs : List (String × PVal))
    (ih : String) (parseArgs : String → Except String α) (events : Nat → CallEvent)
    (times : List Rat) (startT : Rat) (flowId : Option String) (defaultModel : String) :
    ∀ (fuel : Nat) (sc gc : List (String × α)) (budget : Option Budget) (attempt : Nat)
      (rr arr : List String) (rh : List (List String)) (tc : Rat) (lp : Bool)
      (tsf : List (Option Rat)),
      ∃ m : Nat,
        (retryLoop spec inputs ih parseArgs events times startT flowId defaultModel
            sc gc budget attempt rr arr rh tc lp tsf fuel).timeouts
          = tsf ++ (List.range' attempt m).map (timePlan budget times)
        ∧ (∀ v, (retryLoop spec inputs ih parseArgs events times startT flowId defaultModel
              sc gc budget attempt rr arr rh tc lp tsf fuel).result = .ok v →
            (retryLoop spec inputs ih parseArgs events times startT flowId defaultModel
              sc gc budget attempt rr arr rh tc lp tsf fuel).trace.length = 1)
        ∧ (∀ e, (retryLoop spec inputs ih parseArgs events times startT flowId defaultModel
              sc gc budget attempt rr arr rh tc lp tsf fuel).result = .error e →
            (retryLoop spec inputs ih parseArgs events times startT flowId defaultModel
              sc gc budget attempt rr arr rh tc lp tsf fuel).trace = []) := by
  intro fuel
  induction fuel with
  | zero =>
    intro sc gc budget attempt rr arr rh tc lp tsf
    refine ⟨0, ?_, ?_, ?_⟩
    · unfold retryLoop
      split <;> simp
    · intro v hv
      unfold retryLoop at hv
      split at hv <;> simp at hv
    · intro e he
      unfold retryLoop
      split <;> rfl
  | succ fuel ihf =>
    intro sc gc budget attempt rr arr rh tc lp tsf
    unfold retryLoop
    simp only []
    split
    · exact ⟨0, by simp, by intro v hv; simp at hv, by intro e he; rfl⟩
    · split
      · exact ⟨0, by simp, by intro v hv; simp at hv, by intro e he; rfl⟩
      · split
        · exact ⟨0, by simp, by intro v hv; simp at hv, by intro e he; rfl⟩
        · split
          · -- events attempt = .timeout
            refine ⟨1, ?_, by intro v hv; simp at hv, by intro e he; rfl⟩
            simp [List.range'_succ, timePlan]
          · -- events attempt = .raiseErr
            refine ⟨1, ?_, by intro v hv; simp at hv, by intro e he; rfl⟩
            simp [List.range'_succ, timePlan]
          · -- events attempt = .reply
            split
            · -- toolCalls = [] : recurse
              obtain ⟨m, hm1, hm2, hm3⟩ := ihf sc gc _ (attempt + 1) _ _ _ _ true _
              refine ⟨m + 1, ?_, hm2, hm3⟩
              rw [hm1, timePlan_record_fun, List.range'_succ, List.map_cons]
              simp [timePlan, List.append_assoc]
            · -- toolCalls = tc :: _
              split
              · -- parseArgs error : recurse
                obtain ⟨m, hm1, hm2, hm3⟩ := ihf sc gc _ (attempt + 1) _ _ _ _ true _
                refine ⟨m + 1, ?_, hm2, hm3⟩
                rw [hm1, timePlan_record_fun, List.range'_succ, List.map_cons]
                simp [timePlan, List.append_assoc]
              · split
                · -- no violations : success
                  refine ⟨1, ?_, by intro v hv; rfl, by intro e he; simp at he⟩
                  simp [List.range'_succ, timePlan]
                · -- violations : recurse
                  obtain ⟨m, hm1, hm2, hm3⟩ := ihf sc gc _ (attempt + 1) _ _ _ _ false _
                  refine ⟨m + 1, ?_, hm2, hm3⟩
                  rw [hm1, timePlan_record_fun, List.range'_succ, List.map_cons]
                  simp [timePlan, List.append_assoc]

/-- C1 (amended): an execute_infer invocation appends exactly one trace
record when it returns a value (terminal success, cache hits included), and
appends none when it raises (precondition failure, budget exhaustion, adapter
error, compile error, or retries exhausted); intermediate retry attempts never
append records. -/
theorem trace_once_on_success_none_on_failure {α : Type} (spec : ExecSpec α)
    (inputs : List (String × PVal)) (ih : String) (flowBudget : Option Budget)
    (flowId : Option String) (sc gc : List (String × α))
    (parseArgs : String → Except String α) (events : Nat → CallEvent)
    (times : List Rat) (defaultModel : String) :
    (∀ v, (execute_infer spec inputs ih flowBudget flowId sc gc parseArgs events times
          defaultModel).result = .ok v →
        (execute_infer spec inputs ih flowBudget flowId sc gc parseArgs events times
          defaultModel).trace.length = 1)
    ∧ (∀ e, (execute_infer spec inputs ih flowBudget flowId sc gc parseArgs events times
          defaultModel).result = .error e →
        (execute_infer spec inputs ih flowBudget flowId sc gc parseArgs events times
          defaultModel).trace = []) := by
  unfold execute_infer
  cases hg : runGiven spec.fnName spec.given inputs with
  | error e0 =>
    exact ⟨by intro v hv; simp at hv, by intro e he; rfl⟩
  | ok u =>
    cases u
    dsimp only
    cases hc : cacheLookup spec ih sc gc with
    | some v0 =>
      dsimp only
      cases he2 : runEnsureOrRaise spec.fnName spec.ensure v0 with
      | error e0 => exact ⟨by intro v hv; simp at hv, by intro e he; rfl⟩
      | ok u2 => cases u2; exact ⟨by intro v hv; rfl, by intro e he; simp at he⟩
    | none =>
      dsimp only
      obtain ⟨m, _, h2, h3⟩ := retryLoop_shape spec inputs ih parseArgs events times
        (timeAt times 0) flowId defaultModel (spec.retries + 1) sc gc
        (effBudget spec.budget flowBudget (timeAt times 0)) 0 [] [] [] 0 true []
      exact ⟨h2, h3⟩

/-- Counterexample to C1 as stated: a run that ends in terminal failure
(postconditions failed, retries exhausted) appends zero trace records, not
one. -/
theorem trace_missing_on_failure_counterexample :
    (execute_infer specEnsureFails [] "IH" none none [] [] (fun _ => .ok 0)
        (fun _ => .reply ⟨[⟨"raw"⟩], none⟩) [0, 0] "m").result
      = .error (.postconditionFailed "f" ["ensure: bad(result) was False"]
          [["ensure: bad(result) was False"]])
    ∧ (execute_infer specEnsureFails [] "IH" none none [] [] (fun _ => .ok 0)
        (fun _ => .reply ⟨[⟨"raw"⟩], none⟩) [0, 0] "m").trace.length = 0 :=
  ⟨by decide, by decide⟩

/-- Witness for C1 (amended): a successful run returns its parsed value and
appends exactly one trace record. -/
theorem trace_once_on_success_none_on_failure_witness :
    (execute_infer specPlain [] "IH" none none [] [] (fun _ => .ok 7)
        (fun _ => .reply ⟨[⟨"raw"⟩], none⟩) [0, 0] "m").result = .ok 7
    ∧ (execute_infer specPlain [] "IH" none none [] [] (fun _ => .ok 7)
        (fun _ => .reply ⟨[⟨"raw"⟩], none⟩) [0, 0] "m").trace.length = 1 :=
  ⟨by decide,
   (trace_once_on_success_none_on_failure specPlain [] "IH" none none [] []
      (fun _ => .ok 7) (fun _ => .reply ⟨[⟨"raw"⟩], none⟩) [0, 0] "m").1 7 (by decide)⟩

/-- C2 (amended): the timeout passed to the provider call of attempt k is the
remaining time, at that attempt's clock reading, of the effective budget — the
step budget's fresh clone when a step budget is declared (the ambient flow
budget is then ignored), else the flow budget. -/
theorem timeout_uses_effective_budget {α : Type} (spec : ExecSpec α)
    (inputs : List (String × PVal)) (ih : String) (flowBudget : Option Budget)
    (flowId : Option String) (sc gc : List (String × α))
    (parseArgs : String → Except String α) (events : Nat → CallEvent)
    (times : List Rat) (defaultModel : String) :
    (execute_infer spec inputs ih flowBudget flowId sc gc parseArgs events times
        defaultModel).timeouts
      = (List.range (execute_infer spec inputs ih flowBudget flowId sc gc parseArgs events
          times defaultModel).timeouts.length).map
          (timePlan (effBudget spec.budget flowBudget (timeAt times 0)) times) := by
  unfold execute_infer
  cases hg : runGiven spec.fnName spec.given inputs with
  | error e0 => rfl
  | ok u =>
    cases u
    dsimp only
    cases hc : cacheLookup spec ih sc gc with
    | some v0 =>
      dsimp only
      cases he2 : runEnsureOrRaise spec.fnName spec.ensure v0 with
      | error e0 => rfl
      | ok u2 => cases u2; rfl
    | none =>
      dsimp only
      obtain ⟨m, h1, _, _⟩ := retryLoop_shape spec inputs ih parseArgs events times
        (timeAt times 0) flowId defaultModel (spec.retries + 1) sc gc
        (effBudget spec.budget flowBudget (timeAt times 0)) 0 [] [] [] 0 true []
      rw [h1]
      simp [List.range_eq_range', List.length_range']

/-- Counterexample to C2 as stated: with a 10-second step budget and a flow
budget with 1 second remaining, the call timeout is 10 seconds — the step
clone's remaining time — not the minimum of the two remaining times. -/
theorem timeout_not_min_counterexample :
    (execute_infer specStepBudget [] "IH" (some flowBudgetNearlySpent) none [] []
        (fun _ => .ok 0) (fun _ => .timeout) [0, 0] "m").timeouts = [some 10]
    ∧ flowBudgetNearlySpent.remaining_seconds 0 = some 1
    ∧ (Budget.clone ⟨some 10000, none, 0, 0⟩ 0).remaining_seconds 0 = some 10
    ∧ (10 : Rat) ≠ min 10 1 :=
  ⟨by with_unfolding_all decide, by with_unfolding_all decide,
   by with_unfolding_all decide, by with_unfolding_all decide⟩

lemma retryLoop_allExtractFail {α : Type} (spec : ExecSpec α)
    (inputs : List (String × PVal)) (ih : String) (parseArgs : String → Except String α)
    (events : Nat → CallEvent) (times : List Rat) (startT : Rat) (flowId : Option String)
    (defaultModel : String)
    (hcompile : opaqueRefViolation spec.intent spec.context spec.opaqueParams = false) :
    ∀ (fuel : Nat) (sc gc : List (String × α)) (attempt : Nat) (rr arr : List String)
      (rh : List (List String)) (tc : Rat) (lp : Bool) (tsf : List (Option Rat)),
      1 ≤ fuel →
      (∀ j, attempt ≤ j → j < attempt + fuel →
          ∃ resp, events j = .reply resp ∧ resp.toolCalls = []) →
      (retryLoop spec inputs ih parseArgs events times startT flowId defaultModel
          sc gc none attempt rr arr rh tc lp tsf fuel).result
        = .error (.parseFailure spec.fnName
            "Failed to extract tool call: No tool call in response") := by
  intro fuel
  induction fuel with
  | zero =>
    intro sc gc attempt rr arr rh tc lp tsf h1 _
    exact absurd h1 (by omega)
  | succ fuel ihf =>
    intro sc gc attempt rr arr rh tc lp tsf _ hext
    obtain ⟨resp, hev, htc⟩ := hext attempt (le_refl _) (by omega)
    have hcp : compile_prompt spec.intent spec.context inputs spec.opaqueParams rr
        = .ok (String.intercalate "\n"
            (promptParts spec.intent spec.context inputs spec.opaqueParams rr)) := by
      unfold compile_prompt
      rw [hcompile]
      simp
    unfold retryLoop
    rw [hcp]
    dsimp only
    rw [hev]
    dsimp only
    rw [htc]
    dsimp only [Option.map_none', Option.getD_none, Option.none_bind]
    simp only [Option.map_none', ite_self]
    cases fuel with
    | zero =>
      unfold retryLoop
      simp
      rfl
    | succ fuel2 =>
      exact ihf _ _ _ _ _ _ _ true _ (by omega)
        (fun j hj1 hj2 => hext j (by omega) (by omega))

/-- C4 (corrected): with no budget in force, a precondition-clean spec and a
compile-clean prompt — an exception raised by the provider call itself
propagates out of the executor unchanged (it is not converted into a retry
reason and not wrapped in ParseFailure), while a response whose tool-call list
is empty (a response-shape error) is parse-class on every attempt and
surfaces, when retries are exhausted, as ParseFailure. -/
theorem adapter_errors_propagate_raw {α : Type} (spec : ExecSpec α)
    (inputs : List (String × PVal)) (ih : String) (flowId : Option String)
    (sc gc : List (String × α)) (parseArgs : String → Except String α)
    (events : Nat → CallEvent) (times : List Rat) (defaultModel : String)
    (hgiven : runGiven spec.fnName spec.given inputs = .ok ())
    (hcache : spec.cache = .cnone)
    (hbudget : spec.budget = none)
    (hcompile : opaqueRefViolation spec.intent spec.context spec.opaqueParams = false) :
    (∀ msg, events 0 = .raiseErr msg →
        (execute_infer spec inputs ih none flowId sc gc parseArgs events times
            defaultModel).result = .error (.adapterRaised msg)
        ∧ (execute_infer spec inputs ih none flowId sc gc parseArgs events times
            defaultModel).providerCalls = 1
        ∧ (execute_infer spec inputs ih none flowId sc gc parseArgs events times
            defaultModel).trace = [])
    ∧ ((∀ j, j ≤ spec.retries → ∃ resp, events j = .reply resp ∧ resp.toolCalls = []) →
        (execute_infer spec inputs ih none flowId sc gc parseArgs events times
            defaultModel).result
          = .error (.parseFailure spec.fnName
              "Failed to extract tool call: No tool call in response")) := by
  have hlook : cacheLookup spec ih sc gc = none := by
    unfold cacheLookup
    rw [hcache]
  have hcp : compile_prompt spec.intent spec.context inputs spec.opaqueParams []
      = .ok (String.intercalate "\n"
          (promptParts spec.intent spec.context inputs spec.opaqueParams [])) := by
    unfold compile_prompt
    rw [hcompile]
    simp
  constructor
  · intro msg hev
    unfold execute_infer
    rw [hgiven]
    dsimp only
    rw [hlook]
    dsimp only
    rw [hbudget]
    show ((retryLoop spec inputs ih parseArgs events times (timeAt times 0) flowId
        defaultModel sc gc (effBudget none none (timeAt times 0)) 0 [] [] [] 0 true []
        (spec.retries + 1)).result = _)
      ∧ ((retryLoop spec inputs ih parseArgs events times (timeAt times 0) flowId
        defaultModel sc gc (effBudget none none (timeAt times 0)) 0 [] [] [] 0 true []
        (spec.retries + 1)).providerCalls = 1)
      ∧ ((retryLoop spec inputs ih parseArgs events times (timeAt times 0) flowId
        defaultModel sc gc (effBudget none none (timeAt times 0)) 0 [] [] [] 0 true []
        (spec.retries + 1)).trace = [])
    unfold retryLoop effBudget
    rw [hcp]
    dsimp only
    rw [hev]
    exact ⟨rfl, rfl, rfl⟩
  · intro hext
    unfold execute_infer
    rw [hgiven]
    dsimp only
    rw [hlook]
    dsimp only
    rw [hbudget]
    show (retryLoop spec inputs ih parseArgs events times (timeAt times 0) flowId
        defaultModel sc gc (effBudget none none (timeAt times 0)) 0 [] [] [] 0 true []
        (spec.retries + 1)).result = _
    unfold effBudget
    apply retryLoop_allExtractFail spec inputs ih parseArgs events times (timeAt times 0)
      flowId defaultModel hcompile (spec.retries + 1) sc gc 0 [] [] [] 0 true []
    · omega
    · intro j hj1 hj2
      exact hext j (by omega)

/-- Counterexample to C4 as stated: a non-timeout adapter exception surfaces
as the raw exception after a single call, although two retries remain — it is
not treated as a parse-class failure and no ParseFailure is raised. -/
theorem adapter_error_not_parse_class_counterexample :
    (execute_infer specRetries2 [] "IH" none none [] [] (fun _ => .ok 0)
        (fun _ => .raiseErr "APIConnectionError: connection reset") [0, 0] "m").result
      = .error (.adapterRaised "APIConnectionError: connection reset")
    ∧ (execute_infer specRetries2 [] "IH" none none [] [] (fun _ => .ok 0)
        (fun _ => .raiseErr "APIConnectionError: connection reset") [0, 0] "m").providerCalls
      = 1
    ∧ specRetries2.retries = 2 :=
  ⟨by decide, by decide, by decide⟩

/-- Witness for C4 (corrected): the adapter-exception conjunct at a concrete
raising provider and the shape-error conjunct at a provider that always
returns a tool-call-free response. -/
theorem adapter_errors_propagate_raw_witness :
    ((execute_infer specRetries2 [] "IH" none none [] [] (fun _ => .ok (0 : Nat))
        (fun _ => .raiseErr "boom") [0, 0] "m").result = .error (.adapterRaised "boom")
      ∧ (execute_infer specRetries2 [] "IH" none none [] [] (fun _ => .ok (0 : Nat))
          (fun _ => .raiseErr "boom") [0, 0] "m").providerCalls = 1
      ∧ (execute_infer specRetries2 [] "IH" none none [] [] (fun _ => .ok (0 : Nat))
          (fun _ => .raiseErr "boom") [0, 0] "m").trace = [])
    ∧ (execute_infer specRetries2 [] "IH" none none [] [] (fun _ => .ok (0 : Nat))
        (fun _ => .reply ⟨[], none⟩) [0, 0] "m").result
      = .error (.parseFailure "h" "Failed to extract tool call: No tool call in response") :=
  ⟨(adapter_errors_propagate_raw specRetries2 [] "IH" none [] [] (fun _ => .ok 0)
      (fun _ => .raiseErr "boom") [0, 0] "m" rfl rfl rfl (by decide)).1 "boom" rfl,
   (adapter_errors_propagate_raw specRetries2 [] "IH" none [] [] (fun _ => .ok 0)
      (fun _ => .reply ⟨[], none⟩) [0, 0] "m" rfl rfl rfl (by decide)).2
     fun j hj => ⟨⟨[], none⟩, rfl, rfl⟩⟩

/-- C7: on a session or global cache hit, the executor re-runs the step's
current postconditions against the cached value; when they all pass it appends
one trace record with cache_hit = true, attempts = 0 and duration = 0 and
returns the cached value with zero provider calls; when they fail it raises
PostconditionFailed with zero provider calls — hence any value returned from
the cache has passed the step's current postconditions. -/
theorem cache_hit_revalidates_and_traces {α : Type} (spec : ExecSpec α)
    (inputs : List (String × PVal)) (ih : String) (flowBudget : Option Budget)
    (flowId : Option String) (sc gc : List (String × α))
    (parseArgs : String → Except String α) (events : Nat → CallEvent)
    (times : List Rat) (defaultModel : String) (v : α)
    (hgiven : runGiven spec.fnName spec.given inputs = .ok ())
    (hhit : cacheLookup spec ih sc gc = some v) :
    (violationsOf spec.ensure v = [] →
        (execute_infer spec inputs ih flowBudget flowId sc gc parseArgs events times
            defaultModel).result = .ok v
        ∧ (execute_infer spec inputs ih flowBudget flowId sc gc parseArgs events times
            defaultModel).trace = [cacheHitRecord spec defaultModel inputs v flowId]
        ∧ (cacheHitRecord spec defaultModel inputs v flowId).cacheHit = true
        ∧ (cacheHitRecord spec defaultModel inputs v flowId).attempts = 0
        ∧ (cacheHitRecord spec defaultModel inputs v flowId).durationMs = 0
        ∧ (execute_infer spec inputs ih flowBudget flowId sc gc parseArgs events times
            defaultModel).providerCalls = 0)
    ∧ (∀ vs, violationsOf spec.ensure v = vs → vs ≠ [] →
        (execute_infer spec inputs ih flowBudget flowId sc gc parseArgs events times
            defaultModel).result = .error (.postconditionFailed spec.fnName vs [vs])
        ∧ (execute_infer spec inputs ih flowBudget flowId sc gc parseArgs events times
            defaultModel).providerCalls = 0
        ∧ (execute_infer spec inputs ih flowBudget flowId sc gc parseArgs events times
            defaultModel).trace = [])
    ∧ (∀ w, (execute_infer spec inputs ih flowBudget flowId sc gc parseArgs events times
          defaultModel).result = .ok w → violationsOf spec.ensure w = []) := by
  unfold execute_infer
  rw [hgiven]
  dsimp only
  rw [hhit]
  dsimp only
  refine ⟨?_, ?_, ?_⟩
  · intro hv
    have hok : runEnsureOrRaise spec.fnName spec.ensure v = .ok () := by
      unfold runEnsureOrRaise
      rw [hv]
      rfl
    rw [hok]
    exact ⟨rfl, rfl, rfl, rfl, rfl, rfl⟩
  · intro vs hvs hne
    have herr : runEnsureOrRaise spec.fnName spec.ensure v
        = .error (.postconditionFailed spec.fnName vs [vs]) := by
      unfold runEnsureOrRaise
      rw [hvs]
      simp [hne]
    rw [herr]
    exact ⟨rfl, rfl, rfl⟩
  · intro w hw
    cases hv : violationsOf spec.ensure v with
    | nil =>
      have hok : runEnsureOrRaise spec.fnName spec.ensure v = .ok () := by
        unfold runEnsureOrRaise
        rw [hv]
        rfl
      rw [hok] at hw
      have : v = w := by
        have := hw
        simp at this
        exact this
      rw [← this]
      exact hv
    | cons a as =>
      have herr : runEnsureOrRaise spec.fnName spec.ensure v
          = .error (.postconditionFailed spec.fnName (a :: as) [a :: as]) := by
        unfold runEnsureOrRaise
        rw [hv]
        simp
      rw [herr] at hw
      simp at hw

/-- Witness for C7: a session-cached value 7 passing the postcondition n > 5
is returned with one cache-hit trace record and no provider call. -/
theorem cache_hit_revalidates_and_traces_witness :
    (cacheLookup specSessionCached "IH" [("c:IH", (7 : Nat))] [] = some 7) ∧
    (violationsOf specSessionCached.ensure (7 : Nat) = []) ∧
    ((execute_infer specSessionCached [] "IH" none none [("c:IH", 7)] []
        (fun _ => .ok 0) (fun _ => .timeout) [0, 0] "m").result = .ok 7
      ∧ (execute_infer specSessionCached [] "IH" none none [("c:IH", 7)] []
          (fun _ => .ok 0) (fun _ => .timeout) [0, 0] "m").trace
        = [cacheHitRecord specSessionCached "m" [] 7 none]
      ∧ (cacheHitRecord specSessionCached "m" [] (7 : Nat) none).cacheHit = true
      ∧ (cacheHitRecord specSessionCached "m" [] (7 : Nat) none).attempts = 0
      ∧ (cacheHitRecord specSessionCached "m" [] (7 : Nat) none).durationMs = 0
      ∧ (execute_infer specSessionCached [] "IH" none none [("c:IH", 7)] []
          (fun _ => .ok 0) (fun _ => .timeout) [0, 0] "m").providerCalls = 0) :=
  ⟨by decide, by decide,
   (cache_hit_revalidates_and_traces specSessionCached [] "IH" none none
      [("c:IH", 7)] [] (fun _ => .ok 0) (fun _ => .timeout) [0, 0] "m" 7
      rfl (by decide)).1 (by decide)⟩

end Stratum
